import Mathlib

/-!
# Verification of the spending-report pipeline

Shallow embedding of the core of `generate_reports_cli.py` and
`report/generate_reports_email.py`: vendor normalization, category
classification (both the hard-coded and the rule-based variant), the
income/transfer filter, date parsing, the statement loader with its four
CSV schemas, and the report builder.  Strings are Lean `String`s, decimal
amounts are modelled as rationals, Python exceptions as `Option`/`Except`.
-/

/-- Python `str.split()` / `str.strip()` whitespace characters. -/
def isPySpace (c : Char) : Bool :=
  c = ' ' || c = '\t' || c = '\n' || c = '\r' || c = '\x0c' || c = '\x0b'

/-- Python `str.strip()`: drop leading and trailing whitespace. -/
def pyStrip (s : String) : String :=
  ((s.data.dropWhile isPySpace).reverse.dropWhile isPySpace).reverse.asString

/-- `.str.replace(",", "")`: remove every comma. -/
def stripCommas (s : String) : String :=
  (s.data.filter (fun c => c ≠ ',')).asString

/-- Python `str.upper()` (the data is ASCII, where the two agree),
defined over the character list so that it evaluates by kernel
reduction. -/
def pyUpper (s : String) : String := (s.data.map Char.toUpper).asString

/-- Python `str.lower()`, likewise. -/
def pyLower (s : String) : String := (s.data.map Char.toLower).asString

/-- `a` is a prefix of `b` (executable). -/
def leadsWith : List Char → List Char → Bool
  | [], _ => true
  | _ :: _, [] => false
  | a :: as, b :: bs => a = b && leadsWith as bs

/-- `needle` occurs as a contiguous substring of `hay`: Python's `in`. -/
def occursIn (needle : List Char) : List Char → Bool
  | [] => leadsWith needle []
  | b :: bs => leadsWith needle (b :: bs) || occursIn needle bs

theorem leadsWith_iff (a b : List Char) :
    leadsWith a b = true ↔ ∃ t, b = a ++ t := by
  induction a generalizing b with
  | nil => simp [leadsWith]
  | cons x xs ih =>
    cases b with
    | nil =>
      simp [leadsWith]
    | cons y ys =>
      simp only [leadsWith, Bool.and_eq_true, decide_eq_true_eq, ih,
        List.cons_append, List.cons.injEq]
      constructor
      · rintro ⟨rfl, t, rfl⟩; exact ⟨t, rfl, rfl⟩
      · rintro ⟨t, rfl, rfl⟩; exact ⟨rfl, t, rfl⟩

theorem occursIn_iff (p v : List Char) :
    occursIn p v = true ↔ ∃ a b, v = a ++ p ++ b := by
  induction v with
  | nil =>
    simp only [occursIn, leadsWith_iff]
    constructor
    · rintro ⟨t, ht⟩; exact ⟨[], t, ht⟩
    · rintro ⟨a, b, hab⟩
      rcases List.append_eq_nil.mp (List.append_eq_nil.mp hab.symm).1 with ⟨rfl, rfl⟩
      exact ⟨b, hab⟩
  | cons c cs ih =>
    simp only [occursIn, Bool.or_eq_true, leadsWith_iff, ih]
    constructor
    · rintro (⟨t, ht⟩ | ⟨a, b, rfl⟩)
      · exact ⟨[], t, by simpa using ht⟩
      · exact ⟨c :: a, b, by simp⟩
    · rintro ⟨a, b, hab⟩
      cases a with
      | nil => exact Or.inl ⟨b, by simpa using hab⟩
      | cons a0 as =>
        simp only [List.cons_append, List.cons.injEq] at hab
        exact Or.inr ⟨as, b, by rw [hab.2]⟩

/-! ## A small regex engine (Brzozowski derivatives)

Just enough of Python `re` for the patterns occurring in the source:
literal characters, `.` (any character except newline), `\d`,
concatenation, alternation `|`, `*`, and the derived forms `?` and `+`.
`re.match` (anchored at the start, not full-string) is `matchAtStart`. -/

inductive Rgx where
  | emp : Rgx
  | eps : Rgx
  | chr : Char → Rgx
  | anyc : Rgx
  | digit : Rgx
  | cat : Rgx → Rgx → Rgx
  | alt : Rgx → Rgx → Rgx
  | star : Rgx → Rgx
deriving DecidableEq

namespace Rgx

def nullable : Rgx → Bool
  | emp => false
  | eps => true
  | chr _ => false
  | anyc => false
  | digit => false
  | cat a b => nullable a && nullable b
  | alt a b => nullable a || nullable b
  | star _ => true

def deriv (r : Rgx) (c : Char) : Rgx :=
  match r with
  | emp => emp
  | eps => emp
  | chr d => if c = d then eps else emp
  | anyc => if c = '\n' then emp else eps
  | digit => if c.isDigit then eps else emp
  | cat a b =>
    if nullable a then alt (cat (deriv a c) b) (deriv b c)
    else cat (deriv a c) b
  | alt a b => alt (deriv a c) (deriv b c)
  | star a => cat (deriv a c) (star a)

/-- Python `re.match(r, s)` succeeds: some prefix of `s` is in `L(r)`. -/
def matchAtStart (r : Rgx) : List Char → Bool
  | [] => nullable r
  | c :: cs => nullable r || matchAtStart (deriv r c) cs

/-- The language of a regex, as an inductive predicate. -/
inductive Accepts : Rgx → List Char → Prop where
  | eps : Accepts eps []
  | chr (c : Char) : Accepts (chr c) [c]
  | anyc {c : Char} : c ≠ '\n' → Accepts anyc [c]
  | digit {c : Char} : c.isDigit → Accepts digit [c]
  | catA {a b : Rgx} {u v : List Char} :
      Accepts a u → Accepts b v → Accepts (cat a b) (u ++ v)
  | altL {a b : Rgx} {u : List Char} : Accepts a u → Accepts (alt a b) u
  | altR {a b : Rgx} {u : List Char} : Accepts b u → Accepts (alt a b) u
  | starNil {a : Rgx} : Accepts (star a) []
  | starCat {a : Rgx} {u v : List Char} :
      Accepts a u → Accepts (star a) v → Accepts (star a) (u ++ v)

theorem accepts_emp_iff (w : List Char) : Accepts emp w ↔ False := by
  constructor
  · intro h; cases h
  · intro h; cases h

theorem accepts_eps_iff (w : List Char) : Accepts eps w ↔ w = [] := by
  constructor
  · intro h; cases h; rfl
  · rintro rfl; exact .eps

theorem accepts_chr_iff (c : Char) (w : List Char) :
    Accepts (chr c) w ↔ w = [c] := by
  constructor
  · intro h; cases h; rfl
  · rintro rfl; exact .chr c

theorem accepts_anyc_iff (w : List Char) :
    Accepts anyc w ↔ ∃ c, w = [c] ∧ c ≠ '\n' := by
  constructor
  · intro h; cases h with | anyc hc => exact ⟨_, rfl, hc⟩
  · rintro ⟨c, rfl, hc⟩; exact .anyc hc

theorem accepts_digit_iff (w : List Char) :
    Accepts digit w ↔ ∃ c, w = [c] ∧ c.isDigit := by
  constructor
  · intro h; cases h with | digit hc => exact ⟨_, rfl, hc⟩
  · rintro ⟨c, rfl, hc⟩; exact .digit hc

theorem accepts_cat_iff (a b : Rgx) (w : List Char) :
    Accepts (cat a b) w ↔ ∃ u v, w = u ++ v ∧ Accepts a u ∧ Accepts b v := by
  constructor
  · intro h; cases h with | catA hu hv => exact ⟨_, _, rfl, hu, hv⟩
  · rintro ⟨u, v, rfl, hu, hv⟩; exact .catA hu hv

theorem accepts_alt_iff (a b : Rgx) (w : List Char) :
    Accepts (alt a b) w ↔ Accepts a w ∨ Accepts b w := by
  constructor
  · intro h
    cases h with
    | altL h => exact Or.inl h
    | altR h => exact Or.inr h
  · rintro (h | h); exacts [.altL h, .altR h]

theorem nullable_iff (r : Rgx) : nullable r = true ↔ Accepts r [] := by
  induction r with
  | emp => simp [nullable, accepts_emp_iff]
  | eps => simp [nullable, accepts_eps_iff]
  | chr c => simp [nullable, accepts_chr_iff]
  | anyc => simp [nullable, accepts_anyc_iff]
  | digit => simp [nullable, accepts_digit_iff]
  | cat a b iha ihb =>
    simp only [nullable, Bool.and_eq_true, iha, ihb, accepts_cat_iff]
    constructor
    · rintro ⟨ha, hb⟩; exact ⟨[], [], rfl, ha, hb⟩
    · rintro ⟨u, v, huv, hu, hv⟩
      rcases List.append_eq_nil.mp huv.symm with ⟨rfl, rfl⟩
      exact ⟨hu, hv⟩
  | alt a b iha ihb =>
    simp [nullable, iha, ihb, accepts_alt_iff]
  | star a iha =>
    simp only [nullable, true_iff]; exact .starNil

theorem accepts_star_cons_aux :
    ∀ {r : Rgx} {w : List Char}, Accepts r w →
      ∀ {a : Rgx} {c : Char} {s : List Char}, r = star a → w = c :: s →
        ∃ u v, s = u ++ v ∧ Accepts a (c :: u) ∧ Accepts (star a) v := by
  intro r w h
  induction h with
  | eps => intro a c s hr hw; cases hr
  | chr c => intro a c s hr hw; cases hr
  | anyc hc => intro a c s hr hw; cases hr
  | digit hc => intro a c s hr hw; cases hr
  | catA hu hv ihu ihv => intro a c s hr hw; cases hr
  | altL h ih => intro a c s hr hw; cases hr
  | altR h ih => intro a c s hr hw; cases hr
  | starNil => intro a c s hr hw; cases hw
  | starCat hu hv ihu ihv =>
    intro a c s hr hw
    cases hr
    rename_i u v
    cases u with
    | nil =>
      exact ihv rfl (by simpa using hw)
    | cons c0 u0 =>
      simp only [List.cons_append, List.cons.injEq] at hw
      rcases hw with ⟨rfl, rfl⟩
      exact ⟨u0, v, rfl, hu, hv⟩

theorem accepts_star_cons {a : Rgx} {c : Char} {s : List Char}
    (h : Accepts (star a) (c :: s)) :
    ∃ u v, s = u ++ v ∧ Accepts a (c :: u) ∧ Accepts (star a) v :=
  accepts_star_cons_aux h rfl rfl

theorem deriv_iff (r : Rgx) (c : Char) (s : List Char) :
    Accepts (deriv r c) s ↔ Accepts r (c :: s) := by
  induction r generalizing s with
  | emp => simp [deriv, accepts_emp_iff]
  | eps =>
    simp only [deriv, accepts_emp_iff, accepts_eps_iff, false_iff]
    intro h; cases h
  | chr d =>
    by_cases hc : c = d
    · subst hc
      simp [deriv, accepts_eps_iff, accepts_chr_iff]
    · simp only [deriv, if_neg hc, accepts_emp_iff, accepts_chr_iff, false_iff,
        List.cons.injEq, not_and]
      intro h; exact absurd h hc
  | anyc =>
    by_cases hc : c = '\n'
    · subst hc
      have hd : deriv anyc '\n' = emp := by decide
      rw [hd]
      simp only [accepts_emp_iff, accepts_anyc_iff, false_iff]
      rintro ⟨d, hd, hne⟩
      simp only [List.cons.injEq] at hd
      exact hne hd.1.symm
    · simp only [deriv, if_neg hc, accepts_eps_iff, accepts_anyc_iff]
      constructor
      · rintro rfl; exact ⟨c, rfl, hc⟩
      · rintro ⟨d, hd, hne⟩
        simp only [List.cons.injEq] at hd
        exact hd.2
  | digit =>
    by_cases hc : c.isDigit
    · simp only [deriv, if_pos hc, accepts_eps_iff, accepts_digit_iff]
      constructor
      · rintro rfl; exact ⟨c, rfl, hc⟩
      · rintro ⟨d, hd, hdd⟩
        simp only [List.cons.injEq] at hd
        exact hd.2
    · simp only [deriv, if_neg hc, accepts_emp_iff, accepts_digit_iff, false_iff]
      rintro ⟨d, hd, hdd⟩
      simp only [List.cons.injEq] at hd
      exact hc (hd.1 ▸ hdd)
  | cat a b iha ihb =>
    by_cases hn : nullable a
    · simp only [deriv, if_pos hn, accepts_alt_iff, accepts_cat_iff, iha, ihb]
      constructor
      · rintro (⟨u, v, rfl, hu, hv⟩ | hb)
        · exact ⟨c :: u, v, rfl, hu, hv⟩
        · exact ⟨[], c :: s, rfl, (nullable_iff a).mp hn, hb⟩
      · rintro ⟨u, v, huv, hu, hv⟩
        cases u with
        | nil =>
          simp only [List.nil_append] at huv
          exact Or.inr (huv ▸ hv)
        | cons u0 us =>
          simp only [List.cons_append, List.cons.injEq] at huv
          rcases huv with ⟨rfl, rfl⟩
          exact Or.inl ⟨us, v, rfl, hu, hv⟩
    · simp only [deriv, if_neg hn, accepts_cat_iff, iha]
      constructor
      · rintro ⟨u, v, rfl, hu, hv⟩
        exact ⟨c :: u, v, rfl, hu, hv⟩
      · rintro ⟨u, v, huv, hu, hv⟩
        cases u with
        | nil => exact absurd ((nullable_iff a).mpr hu) (by simpa using hn)
        | cons u0 us =>
          simp only [List.cons_append, List.cons.injEq] at huv
          rcases huv with ⟨rfl, rfl⟩
          exact ⟨us, v, rfl, hu, hv⟩
  | alt a b iha ihb =>
    simp [deriv, accepts_alt_iff, iha, ihb]
  | star a iha =>
    simp only [deriv, accepts_cat_iff, iha]
    constructor
    · rintro ⟨u, v, rfl, hu, hv⟩
      exact (List.cons_append c u v) ▸ Accepts.starCat hu hv
    · intro h
      rcases accepts_star_cons h with ⟨u, v, rfl, hu, hv⟩
      exact ⟨u, v, rfl, hu, hv⟩

theorem matchAtStart_iff (r : Rgx) (v : List Char) :
    matchAtStart r v = true ↔ ∃ u t, v = u ++ t ∧ Accepts r u := by
  induction v generalizing r with
  | nil =>
    simp only [matchAtStart, nullable_iff]
    constructor
    · intro h; exact ⟨[], [], rfl, h⟩
    · rintro ⟨u, t, hut, hu⟩
      rcases List.append_eq_nil.mp hut.symm with ⟨rfl, rfl⟩
      exact hu
  | cons c cs ih =>
    simp only [matchAtStart, Bool.or_eq_true, nullable_iff, ih, deriv_iff]
    constructor
    · rintro (h | ⟨u, t, rfl, hu⟩)
      · exact ⟨[], c :: cs, rfl, h⟩
      · exact ⟨c :: u, t, rfl, hu⟩
    · rintro ⟨u, t, hut, hu⟩
      cases u with
      | nil => exact Or.inl hu
      | cons u0 us =>
        simp only [List.cons_append, List.cons.injEq] at hut
        rcases hut with ⟨rfl, rfl⟩
        exact Or.inr ⟨us, t, rfl, hu⟩

/-- A literal regex: the sequence of the characters of `l` (what
`re.escape` produces for a pattern without metacharacters). -/
def litRe : List Char → Rgx
  | [] => eps
  | c :: cs => cat (chr c) (litRe cs)

theorem accepts_litRe_iff (l w : List Char) :
    Accepts (litRe l) w ↔ w = l := by
  induction l generalizing w with
  | nil => simp [litRe, accepts_eps_iff]
  | cons c cs ih =>
    simp only [litRe, accepts_cat_iff, accepts_chr_iff, ih]
    constructor
    · rintro ⟨u, v, rfl, rfl, rfl⟩; rfl
    · rintro rfl; exact ⟨[c], cs, rfl, rfl, rfl⟩

/-- `.*` -/
def dotStar : Rgx := star anyc

theorem accepts_dotStar_iff (w : List Char) :
    Accepts dotStar w ↔ ∀ c ∈ w, c ≠ '\n' := by
  induction w with
  | nil =>
    simp only [List.not_mem_nil, false_implies, implies_true, iff_true]
    exact .starNil
  | cons c cs ih =>
    constructor
    · intro h
      rcases accepts_star_cons h with ⟨u, v, huv, hu, hv⟩
      rcases (accepts_anyc_iff _).mp hu with ⟨d, hd, hne⟩
      simp only [List.cons.injEq] at hd
      rcases hd with ⟨rfl, rfl⟩
      simp only [List.nil_append] at huv
      subst huv
      intro x hx
      rcases List.mem_cons.mp hx with rfl | hx
      · exact hne
      · exact ih.mp hv x hx
    · intro h
      have hc : Accepts anyc [c] := .anyc (h c (List.mem_cons_self c cs))
      have hcs : Accepts dotStar cs :=
        ih.mpr (fun x hx => h x (List.mem_cons_of_mem c hx))
      exact (List.singleton_append ▸ Accepts.starCat hc hcs)

end Rgx

namespace Rgx

/-- `f".*{re.escape(pattern)}.*"` as used by the rule-based classifier. -/
def escRe (p : List Char) : Rgx := cat dotStar (cat (litRe p) dotStar)

/-- On newline-free vendors, `re.match(".*" + re.escape(p) + ".*", v)` is
exactly substring occurrence of `p` in `v`. -/
theorem matchAtStart_escRe (p v : List Char) (hv : ∀ c ∈ v, c ≠ '\n') :
    matchAtStart (escRe p) v = occursIn p v := by
  have h1 : matchAtStart (escRe p) v = true ↔ occursIn p v = true := by
    rw [matchAtStart_iff, occursIn_iff]
    constructor
    · rintro ⟨u, t, rfl, hu⟩
      rw [escRe, accepts_cat_iff] at hu
      rcases hu with ⟨a, w, rfl, ha, hw⟩
      rw [accepts_cat_iff] at hw
      rcases hw with ⟨m, b, rfl, hm, hb⟩
      rw [accepts_litRe_iff] at hm
      subst hm
      exact ⟨a, b ++ t, by simp⟩
    · rintro ⟨a, b, rfl⟩
      refine ⟨a ++ p, b, by simp, ?_⟩
      rw [escRe, accepts_cat_iff]
      refine ⟨a, p, rfl, ?_, ?_⟩
      · rw [accepts_dotStar_iff]
        intro c hc
        exact hv c (by simp [hc])
      · rw [accepts_cat_iff]
        refine ⟨p, [], by simp, (accepts_litRe_iff p p).mpr rfl, ?_⟩
        rw [accepts_dotStar_iff]
        intro c hc
        cases hc
  cases hL : matchAtStart (escRe p) v <;> cases hR : occursIn p v <;>
    simp_all

end Rgx

/-! ## Decimal number parsing

Models Python `float()` / `pd.to_numeric` on the plain decimal literals
occurring in statement data: optional surrounding whitespace, optional
sign, digits with at most one decimal point.  The value is an exact
rational. -/

def digitsToNat (ds : List Char) : Nat :=
  ds.foldl (fun a c => a * 10 + (c.toNat - 48)) 0

/-- Parse `digits [. digits]` (at least one digit overall) to a rational. -/
def parseUnsignedDecimal (cs : List Char) : Option ℚ :=
  let ip := cs.takeWhile Char.isDigit
  let rest := cs.drop ip.length
  match rest with
  | [] =>
    if ip.isEmpty then none else some (digitsToNat ip : ℚ)
  | '.' :: fp =>
    if fp.all Char.isDigit ∧ ¬ (ip.isEmpty ∧ fp.isEmpty) then
      some ((digitsToNat ip : ℚ) + (digitsToNat fp : ℚ) / (10 : ℚ) ^ fp.length)
    else none
  | _ => none

/-- Python `float(s)` on plain decimal strings (no exponent/inf forms,
which never occur in the statement columns), as an exact rational;
`none` models `ValueError`. -/
def pyFloat (s : String) : Option ℚ :=
  match (pyStrip s).data with
  | '-' :: cs => (parseUnsignedDecimal cs).map (fun q => -q)
  | '+' :: cs => parseUnsignedDecimal cs
  | cs => parseUnsignedDecimal cs

/-- `astype(str).str.replace(",", "").astype(float)` on one field. -/
def parseAmount (s : String) : Option ℚ := pyFloat (stripCommas s)

/-- `pd.to_numeric(..., errors="coerce").fillna(0)` on one comma-stripped
field: unparseable values (including the empty string) become `0`. -/
def toNumericFill0 (s : String) : ℚ := (pyFloat (stripCommas s)).getD 0

/-! ## Python `str.split()[0]` -/

/-- `s.split()[0]`: the first whitespace-delimited token of `s` (split
with no argument discards leading whitespace); `none` models the
`IndexError` raised by `[0]` when there is no token. -/
def pySplitHead (s : String) : Option String :=
  match s.data.dropWhile isPySpace with
  | [] => none
  | c :: cs => some (((c :: cs).takeWhile (fun x => ¬ isPySpace x)).asString)

/-! ## Date parsing (`datetime.strptime` for the three formats used)

`parse_date_safe` tries `%m/%d/%Y`, `%m/%d/%y`, `%m/%d` in order.  In
CPython `%m` and `%d` accept one or two digits (values 1–12 / 1–31), `%Y`
exactly four digits, `%y` exactly two (00–68 ↦ 20xx, 69–99 ↦ 19xx); the
whole string must be consumed, and `datetime` construction validates the
day against the month length (the year-less format is built at year
1900). -/

structure PyDate where
  year : Nat
  month : Nat
  day : Nat
deriving DecidableEq, Repr

def isLeapYear (y : Nat) : Bool :=
  y % 4 = 0 && (y % 100 ≠ 0 || y % 400 = 0)

def daysInMonth (y m : Nat) : Nat :=
  if m = 2 then (if isLeapYear y then 29 else 28)
  else if m = 4 || m = 6 || m = 9 || m = 11 then 30
  else 31

/-- A field of 1–2 digits in the range `1..hi` (`%m`, `%d`). -/
def parseField2 (hi : Nat) (cs : List Char) : Option Nat :=
  if cs.all Char.isDigit ∧ 1 ≤ cs.length ∧ cs.length ≤ 2 then
    let v := digitsToNat cs
    if 1 ≤ v ∧ v ≤ hi then some v else none
  else none

/-- `%Y`: exactly four digits (year 0 is rejected by `datetime`). -/
def parseYear4 (cs : List Char) : Option Nat :=
  if cs.all Char.isDigit ∧ cs.length = 4 ∧ digitsToNat cs ≥ 1 then
    some (digitsToNat cs)
  else none

/-- `%y`: exactly two digits; 00–68 ↦ 2000–2068, 69–99 ↦ 1969–1999. -/
def parseYear2 (cs : List Char) : Option Nat :=
  if cs.all Char.isDigit ∧ cs.length = 2 then
    let v := digitsToNat cs
    some (if v ≤ 68 then 2000 + v else 1900 + v)
  else none

def mkValidDate (y m d : Nat) : Option PyDate :=
  if d ≤ daysInMonth y m then some ⟨y, m, d⟩ else none

/-- `datetime.strptime(x, "%m/%d/%Y")`. -/
def parseMDY (x : String) : Option PyDate :=
  match x.data.splitOn '/' with
  | [ms, ds, ys] => do
    let m ← parseField2 12 ms
    let d ← parseField2 31 ds
    let y ← parseYear4 ys
    mkValidDate y m d
  | _ => none

/-- `datetime.strptime(x, "%m/%d/%y")`. -/
def parseMDy (x : String) : Option PyDate :=
  match x.data.splitOn '/' with
  | [ms, ds, ys] => do
    let m ← parseField2 12 ms
    let d ← parseField2 31 ds
    let y ← parseYear2 ys
    mkValidDate y m d
  | _ => none

/-- `datetime.strptime(x, "%m/%d")`: the year defaults to 1900. -/
def parseMD (x : String) : Option PyDate :=
  match x.data.splitOn '/' with
  | [ms, ds] => do
    let m ← parseField2 12 ms
    let d ← parseField2 31 ds
    mkValidDate 1900 m d
  | _ => none

/-- `if dt.year == 1900: dt = dt.replace(year=target_year)`. -/
def fixYear (targetYear : Nat) (d : PyDate) : PyDate :=
  if d.year = 1900 then { d with year := targetYear } else d

/-- `parse_date_safe` from both script variants: strip, reject empty,
try the three formats in order, then replace a 1900 year by the target
year.  `none` models the `return None` path. -/
def parse_date_safe (targetYear : Nat) (x : String) : Option PyDate :=
  let x := pyStrip x
  if x = "" then none
  else
    match parseMDY x with
    | some d => some (fixYear targetYear d)
    | none =>
      match parseMDy x with
      | some d => some (fixYear targetYear d)
      | none =>
        match parseMD x with
        | some d => some (fixYear targetYear d)
        | none => none

/-- The per-row test of `filter_to_month`: the date parses and its
month/year equal the target. -/
def inMonth (targetMonth targetYear : Nat) (dateStr : String) : Bool :=
  match parse_date_safe targetYear dateStr with
  | some d => d.month = targetMonth && d.year = targetYear
  | none => false

/-! ## Vendor normalization (`normalize_vendor`, CLI variant)

Each pair is the transliteration of one `(regex, replacement)` entry of
the `patterns` list in `generate_reports_cli.py` (the `report/` email
variant appends a few more entries but is otherwise identical). -/

def litStarRe (s : String) : Rgx := Rgx.cat (Rgx.litRe s.data) Rgx.dotStar

def optRe (r : Rgx) : Rgx := Rgx.alt r Rgx.eps

def plusRe (r : Rgx) : Rgx := Rgx.cat r (Rgx.star r)

def normalizePatterns : List (Rgx × String) := [
  (litStarRe "KROGER", "KROGER"),
  (Rgx.alt (litStarRe "INDIFRESH") (litStarRe "TST*INDI FRESH"), "INDIFRESH"),
  (litStarRe "CHERIANS INTERNATIONAL", "CHERIANS INTERNATIONAL"),
  (litStarRe "FRESH MEAT IN MART", "FRESH MEAT IN MART"),
  (litStarRe "WEGMANS", "WEGMANS"),
  (litStarRe "PUBLIX", "PUBLIX"),
  (litStarRe "FCS FOOD AND NUTRITION", "FCS FOOD AND NUTRITION"),
  (litStarRe "AMAZON", "AMAZON"),
  (litStarRe "COSTCO WHSE", "COSTCO"),
  (litStarRe "COSTCO GAS", "COSTCO GAS"),
  (litStarRe "KROGER FUEL", "KROGER FUEL"),
  (litStarRe "SQ *NALAN INDIAN CUISINE", "NALAN INDIAN CUISINE"),
  (litStarRe "TACO BELL", "TACO BELL"),
  (litStarRe "DOMINO\x27S", "DOMINOS"),
  (litStarRe "TARGET", "TARGET"),
  (Rgx.cat (Rgx.litRe "WAL".data)
    (Rgx.cat (optRe (Rgx.chr '-')) (litStarRe "MART")), "WALMART"),
  (litStarRe "DOLLAR TREE", "DOLLAR TREE"),
  (litStarRe "SHELL OIL", "SHELL"),
  (litStarRe "MCDONALD\x27S", "MCDONALDS"),
  (litStarRe "DUNKIN", "DUNKIN"),
  (litStarRe "CHIPOTLE", "CHIPOTLE"),
  (litStarRe "SUBWAY", "SUBWAY"),
  (litStarRe "LEAGUE TENNIS", "LEAGUE TENNIS"),
  (litStarRe "TELLO US", "TELLO"),
  (litStarRe "TMOBILE*AUTO PAY", "TMOBILE"),
  (litStarRe "COMCAST-XFINITY", "COMCAST"),
  (litStarRe "SAWNEE ELECTRIC MEMBERSH", "SAWNEE ELECTRIC"),
  (litStarRe "CONSTELLATION NEW ENERGY", "CONSTELLATION ENERGY"),
  (litStarRe "FC WATER&SEWER", "FC WATER&SEWER"),
  (litStarRe "RED OAK SANITATION", "RED OAK SANITATION"),
  (litStarRe "WWP*GOT BUGS INC", "WWP GOT BUGS"),
  (litStarRe "TRAVELERS-GEICO AGENCY", "TRAVELERS-GEICO"),
  (litStarRe "AAA LIFE INSURANCE", "AAA LIFE INSURANCE"),
  (litStarRe "THE EMORY CLINIC, INC", "EMORY CLINIC"),
  (litStarRe "TELADOC", "TELADOC"),
  (litStarRe "HAWKMUSICACADEMY", "HAWKMUSIC ACADEMY"),
  (litStarRe "JFI*URBAN AIR", "URBAN AIR"),
  (Rgx.alt (litStarRe "AMC ")
    (Rgx.cat (Rgx.litRe "AMC ".data)
      (Rgx.cat (plusRe Rgx.digit) (litStarRe " ONLINE"))), "AMC"),
  (litStarRe "TJ MAXX", "TJ MAXX"),
  (litStarRe "TST* DESI DISTRICT", "DESI DISTRICT"),
  (litStarRe "SQ *BEAUTY AMBASSADORS", "BEAUTY AMBASSADORS"),
  (litStarRe "TANISHQ - ATLANTA", "TANISHQ"),
  (litStarRe "THE HOME DEPOT ", "HOME DEPOT"),
  (litStarRe "WAWA 118", "WAWA"),
  (litStarRe "ATGPAY ONLINE PA", "ATGPAY"),
  (litStarRe "NSM DBAMR.COOPER", "NSM DBAMR.COOPER"),
  (litStarRe "HOMEDEPOT", "HOME DEPOT"),
  (litStarRe "DOLLAR-GENERAL", "DOLLAR TREE"),
  (litStarRe "PAYPAL", "PAYPAL"),
  (litStarRe "ROSS STORE", "ROSS"),
  (litStarRe "FORSYTH COUNTY", "FORSYTH COUNTY")]

/-- `normalize_vendor(desc)`: first pattern whose regex matches the
upper-cased description at the start wins; otherwise the first
whitespace token (or `""` when the description is empty/None).  The
input is `Option String` (`none` = Python `None`); the output is `none`
exactly when the final `d.split()[0]` raises `IndexError`, i.e. when the
description is non-empty but all whitespace. -/
def normalize_vendor (desc : Option String) : Option String :=
  let d := pyUpper (desc.getD "")
  match normalizePatterns.find? (fun p => Rgx.matchAtStart p.1 d.data) with
  | some p => some p.2
  | none => if d = "" then some "" else pySplitHead d

/-! ## Hard-coded category mapping (`categorize_vendor`, CLI variant) -/

def groceries : List String := ["KROGER", "INDIFRESH", "CHERIANS INTERNATIONAL",
  "FRESH MEAT IN MART", "WEGMANS", "PUBLIX", "FCS FOOD AND NUTRITION", "COSTCO"]

def restaurants : List String := ["TACO BELL", "DOMINOS", "SUBWAY", "CHIPOTLE",
  "MCDONALDS", "DESI DISTRICT", "NALAN INDIAN CUISINE", "DUNKIN"]

def shopping : List String := ["AMAZON", "BESTBUY", "TARGET", "WALMART",
  "TJ MAXX", "BEAUTY AMBASSADORS", "TANISHQ", "ROSS", "DOLLAR TREE"]

def auto_gas : List String := ["COSTCO GAS", "KROGER FUEL", "SHELL", "WAWA"]

def utilities : List String := ["COMCAST", "TMOBILE", "SAWNEE ELECTRIC",
  "CONSTELLATION ENERGY", "TELLO", "TRAVELERS-GEICO", "AAA LIFE INSURANCE",
  "FC WATER&SEWER", "RED OAK SANITATION", "ATGPAY", "NSM DBAMR.COOPER"]

def health : List String := ["TELADOC", "EMORY CLINIC"]

def entertainment : List String := ["AMC", "URBAN AIR", "HAWKMUSIC ACADEMY",
  "LEAGUE TENNIS"]

def home_services : List String := ["HOME DEPOT", "WWP GOT BUGS"]

/-- The hard-coded `categorize_vendor` of `generate_reports_cli.py`
(Python sets are modelled as lists, used only through membership). -/
def categorize_vendor_cli (vendor : String) : String :=
  let v := pyUpper vendor
  if groceries.contains v then "Groceries & Markets"
  else if restaurants.contains v then "Restaurants & Food"
  else if auto_gas.contains v then "Auto & Gas"
  else if utilities.contains v then "Utilities Bills & Insurance"
  else if health.contains v then "Health"
  else if entertainment.contains v then "Entertainment"
  else if home_services.contains v then "Home & Services"
  else if shopping.contains v then "Shopping & Retail"
  else "Shopping & Retail"

/-! ## Rule-based classifier (`report/generate_reports_email.py`) -/

/-- One row of `category_rules.csv` as read by `pd.read_csv` (fields as
strings except `Priority`, whose `int(...)` conversion — and any read
failure — is folded into the `Except` input of `load_category_rules`). -/
structure RawRule where
  RuleID : String
  Priority : Int
  VendorPattern : String
  Category : String
  Explanation : String
  OverrideRuleID : String
  IsCustom : String

/-- The dict built per row inside `load_category_rules`. -/
structure Rule where
  rule_id : String
  priority : Int
  vendor_pattern : String
  category : String
  explanation : String
  override_rule_id : String
  is_custom : String

def mkRule (row : RawRule) : Rule :=
  { rule_id := row.RuleID
    priority := row.Priority
    vendor_pattern := pyUpper row.VendorPattern
    category := row.Category
    explanation := row.Explanation
    override_rule_id := row.OverrideRuleID
    is_custom := row.IsCustom }

/-- Stable insertion used to model Python's stable
`sort(key=priority, reverse=True)`: a new element goes after every
element of priority `≥` its own. -/
def insertRuleDesc (r : Rule) : List Rule → List Rule
  | [] => [r]
  | x :: xs =>
    if r.priority ≤ x.priority then x :: insertRuleDesc r xs
    else r :: x :: xs

def sortRulesDesc (l : List Rule) : List Rule :=
  l.foldl (fun acc r => insertRuleDesc r acc) []

/-- `load_category_rules()`: build rule dicts (patterns upper-cased) and
sort by priority descending; a missing or malformed rules file (any
exception while reading — modelled as the `Except.error` case) yields
`[]` after a printed warning (I/O not modelled). -/
def load_category_rules (input : Except String (List RawRule)) : List Rule :=
  match input with
  | Except.ok rows => sortRulesDesc (rows.map mkRule)
  | Except.error _ => []

/-- `re.match(f".*{re.escape(pattern)}.*", v)` of the rule loop. -/
def rule_matches (pattern v : String) : Bool :=
  Rgx.matchAtStart (Rgx.escRe pattern.data) v.data

/-- The rule-based `categorize_vendor`: upper-case the vendor, return
the category of the first rule (in the given, priority-sorted order)
whose escaped pattern matches, else `"Shopping & Retail"`. -/
def categorize_vendor_rules (rules : List Rule) (vendor : String) : String :=
  let v := pyUpper vendor
  match rules.find? (fun r => rule_matches r.vendor_pattern v) with
  | some r => r.category
  | none => "Shopping & Retail"

/-! ## Income/transfer exclusion -/

/-- `INCOME_TRANSFER_KEYWORDS` of `generate_reports_cli.py`. -/
def INCOME_TRANSFER_KEYWORDS_cli : List String := ["PAYROLL",
  "ZELLE PAYMENT FROM", "TRANSFER", "OVERDRAFT PROTECTION", "DEPOSIT",
  "CREDIT CARD BILL PAYMENT", "CITI AUTOPAY", "AUTOPAY",
  "ONLINE BANKING PAYMENT", "ONLINE PAYMENT",
  "ONLINE BANKING PAYMENT TO CRD",
  "BANK OF AMERICA CREDIT CARD BILL PAYMENT", "BA ELECTRONIC PAYMENT",
  "FID BKG SVC", "BEGINNING BALANCE"]

/-- `INCOME_TRANSFER_KEYWORDS` of `report/generate_reports_email.py`
(adds `"FORSYTH COUNTY PARKS"`). -/
def INCOME_TRANSFER_KEYWORDS_email : List String := ["PAYROLL",
  "ZELLE PAYMENT FROM", "TRANSFER", "OVERDRAFT PROTECTION", "DEPOSIT",
  "CREDIT CARD BILL PAYMENT", "CITI AUTOPAY", "AUTOPAY",
  "ONLINE BANKING PAYMENT", "ONLINE PAYMENT",
  "ONLINE BANKING PAYMENT TO CRD",
  "BANK OF AMERICA CREDIT CARD BILL PAYMENT", "BA ELECTRONIC PAYMENT",
  "FID BKG SVC", "BEGINNING BALANCE", "FORSYTH COUNTY PARKS"]

def is_income_or_transfer_with (keywords : List String)
    (desc : Option String) : Bool :=
  let d := pyUpper (desc.getD "")
  keywords.any (fun k => occursIn k.data d.data)

def is_income_or_transfer_cli (desc : Option String) : Bool :=
  is_income_or_transfer_with INCOME_TRANSFER_KEYWORDS_cli desc

def is_income_or_transfer_email (desc : Option String) : Bool :=
  is_income_or_transfer_with INCOME_TRANSFER_KEYWORDS_email desc

/-! ## Statement loader (`load_any_statement`)

A statement file is modelled after `pd.read_csv` has produced a table:
a path, the raw column names, and the rows.  A `Row` carries the fields
the four schemas consume (for the posted-date/payee schema, `date` and
`description` hold the `Posted Date` and `Payee` columns, which the code
renames before processing).  PDF extraction and the CSV read itself are
I/O treated as external (the spec scopes them out); the loader here
starts at the column-normalization line. -/

structure Row where
  date : String
  description : String
  amountStr : String
  creditStr : String
  debitStr : String
deriving DecidableEq, Repr

structure StatementFile where
  path : String
  headers : List String
  rows : List Row

structure Txn where
  date : String
  vendor : String
  category : String
  amount : ℚ
deriving DecidableEq, Repr

/-- FORMAT 1 guard: some column contains `"bal"`, plus `amount` and
`description`. -/
def schemaBalance (cols : List String) : Bool :=
  cols.any (fun c => occursIn "bal".data c.data) &&
  cols.contains "amount" && cols.contains "description"

/-- FORMAT 2 guard: `posted date`, `payee`, `amount`. -/
def schemaPostedPayee (cols : List String) : Bool :=
  cols.contains "posted date" && cols.contains "payee" &&
  cols.contains "amount"

/-- FORMAT 3 guard: `credit`, `debit`, `description`, `date`. -/
def schemaCreditDebit (cols : List String) : Bool :=
  cols.contains "credit" && cols.contains "debit" &&
  cols.contains "description" && cols.contains "date"

/-- FORMAT 4 guard: `date`, `description`, `amount`. -/
def schemaGeneric (cols : List String) : Bool :=
  cols.contains "date" && cols.contains "description" &&
  cols.contains "amount"

/-- Attach vendor and category to the month-filtered rows.  `none`
models the `IndexError` that `normalize_vendor` raises on an all-
whitespace description. -/
def finishRows (categorize : String → String) (kept : List (Row × ℚ)) :
    Except String (List Txn) :=
  match kept.mapM (fun p =>
      (normalize_vendor (some p.1.description)).map (fun v => (p.1, p.2, v))) with
  | none => Except.error "IndexError: list index out of range"
  | some nv =>
    Except.ok (nv.map (fun q =>
      { date := q.1.date, vendor := q.2.2, category := categorize q.2.2,
        amount := q.2.1 }))

/-- The shared body of FORMATs 1, 2 and 4 (identical in the source):
coerce `amount` with `.astype(float)` (raising on unparseable values),
drop income/transfer rows, filter to the target month, then normalize
and categorize. -/
def pipelineAmount (isIncome : Option String → Bool)
    (categorize : String → String) (tm ty : Nat) (rows : List Row) :
    Except String (List Txn) :=
  match rows.mapM (fun r => (parseAmount r.amountStr).map (fun a => (r, a))) with
  | none => Except.error "could not convert string to float"
  | some withAmounts =>
    let kept := withAmounts.filter (fun p => ¬ isIncome (some p.1.description))
    let kept := kept.filter (fun p => inMonth tm ty p.1.date)
    finishRows categorize kept

/-- FORMAT 3 of `generate_reports_cli.py`: `amount = credit - debit`
(`to_numeric(errors="coerce").fillna(0)`), month filter, normalize,
categorize — with no income/transfer filter. -/
def pipelineCreditDebit_cli (tm ty : Nat) (rows : List Row) :
    Except String (List Txn) :=
  let withAmounts := rows.map (fun r =>
    (r, toNumericFill0 r.creditStr - toNumericFill0 r.debitStr))
  let kept := withAmounts.filter (fun p => inMonth tm ty p.1.date)
  finishRows categorize_vendor_cli kept

/-- FORMAT 3 of `report/generate_reports_email.py`: as the CLI one but
with the income/transfer filter applied between the amount computation
and the month filter, and rule-based categorization. -/
def pipelineCreditDebit_email (rules : List Rule) (tm ty : Nat)
    (rows : List Row) : Except String (List Txn) :=
  let withAmounts := rows.map (fun r =>
    (r, toNumericFill0 r.creditStr - toNumericFill0 r.debitStr))
  let kept := withAmounts.filter
    (fun p => ¬ is_income_or_transfer_email (some p.1.description))
  let kept := kept.filter (fun p => inMonth tm ty p.1.date)
  finishRows (categorize_vendor_rules rules) kept

/-- `load_any_statement` (CLI variant): normalize column names, try the
four schemas in order, raise a descriptive `ValueError` naming the file
when none matches. -/
def load_any_statement_cli (tm ty : Nat) (f : StatementFile) :
    Except String (List Txn) :=
  let cols := f.headers.map (fun h => pyLower (pyStrip h))
  if schemaBalance cols then
    pipelineAmount is_income_or_transfer_cli categorize_vendor_cli tm ty f.rows
  else if schemaPostedPayee cols then
    pipelineAmount is_income_or_transfer_cli categorize_vendor_cli tm ty f.rows
  else if schemaCreditDebit cols then
    pipelineCreditDebit_cli tm ty f.rows
  else if schemaGeneric cols then
    pipelineAmount is_income_or_transfer_cli categorize_vendor_cli tm ty f.rows
  else
    Except.error ("Unrecognized format in file: " ++ f.path)

/-- `load_any_statement` (email variant). -/
def load_any_statement_email (rules : List Rule) (tm ty : Nat)
    (f : StatementFile) : Except String (List Txn) :=
  let cols := f.headers.map (fun h => pyLower (pyStrip h))
  if schemaBalance cols then
    pipelineAmount is_income_or_transfer_email (categorize_vendor_rules rules)
      tm ty f.rows
  else if schemaPostedPayee cols then
    pipelineAmount is_income_or_transfer_email (categorize_vendor_rules rules)
      tm ty f.rows
  else if schemaCreditDebit cols then
    pipelineCreditDebit_email rules tm ty f.rows
  else if schemaGeneric cols then
    pipelineAmount is_income_or_transfer_email (categorize_vendor_rules rules)
      tm ty f.rows
  else
    Except.error ("Unrecognized format in file: " ++ f.path)

/-- The batch loop: `try: all_dfs.append(load_any_statement(path))
except: skip` — a failing file is dropped, the loop continues; a file
loading zero rows still contributes its (empty) table. -/
def processFiles (tm ty : Nat) (files : List StatementFile) :
    List (List Txn) :=
  files.filterMap (fun f => (load_any_statement_cli tm ty f).toOption)

/-! ## Report builder -/

def category_order : List String := ["Groceries & Markets",
  "Restaurants & Food", "Shopping & Retail", "Auto & Gas",
  "Utilities Bills & Insurance", "Health", "Entertainment",
  "Home & Services"]

/-- Report 2 accumulation: for each category of `category_order` with at
least one transaction, its summed amount. -/
def cat_totals (txns : List Txn) : List (String × ℚ) :=
  category_order.filterMap (fun c =>
    let sub := txns.filter (fun t => t.category = c)
    if sub.isEmpty then none else some (c, (sub.map Txn.amount).sum))

/-- `grand_total = sum(t for _, t in cat_totals)`. -/
def grand_total (txns : List Txn) : ℚ :=
  ((cat_totals txns).map Prod.snd).sum

/-- Report 2 data rows `(category, total, percent)` with
`pct = abs(total) / abs(grand_total) * 100 if grand_total != 0 else 0`
(the `"%.2f"` rendering is not modelled). -/
def report2_rows (txns : List Txn) : List (String × ℚ × ℚ) :=
  (cat_totals txns).map (fun p =>
    (p.1, p.2,
      if grand_total txns ≠ 0 then |p.2| / |grand_total txns| * 100 else 0))

/-- Report 1's category sections: for each category of `category_order`
with at least one transaction, the transactions counted in its
section. -/
def report1_sections (txns : List Txn) : List (String × List Txn) :=
  category_order.filterMap (fun c =>
    let sub := txns.filter (fun t => t.category = c)
    if sub.isEmpty then none else some (c, sub))

/-! ## Helper lemmas -/

theorem find?_congr_pred {α : Type} (p q : α → Bool) (l : List α)
    (h : ∀ x ∈ l, p x = q x) : l.find? p = l.find? q := by
  induction l with
  | nil => rfl
  | cons x xs ih =>
    simp only [List.find?]
    rw [h x (List.mem_cons_self x xs)]
    cases hq : q x
    · exact ih (fun y hy => h y (List.mem_cons_of_mem x hy))
    · rfl

def ruleDescOrder (a b : Rule) : Prop := b.priority ≤ a.priority

theorem mem_insertRuleDesc (r y : Rule) (l : List Rule) :
    y ∈ insertRuleDesc r l ↔ y = r ∨ y ∈ l := by
  induction l with
  | nil => simp [insertRuleDesc]
  | cons x xs ih =>
    by_cases h : r.priority ≤ x.priority
    · simp only [insertRuleDesc, if_pos h, List.mem_cons, ih]
      tauto
    · simp only [insertRuleDesc, if_neg h, List.mem_cons]

theorem insertRuleDesc_pairwise (r : Rule) (l : List Rule)
    (h : l.Pairwise ruleDescOrder) :
    (insertRuleDesc r l).Pairwise ruleDescOrder := by
  induction l with
  | nil => simp [insertRuleDesc]
  | cons x xs ih =>
    rcases List.pairwise_cons.mp h with ⟨hx, hxs⟩
    by_cases hp : r.priority ≤ x.priority
    · rw [insertRuleDesc, if_pos hp]
      refine List.pairwise_cons.mpr ⟨?_, ih hxs⟩
      intro y hy
      rcases (mem_insertRuleDesc r y xs).mp hy with rfl | hy
      · exact hp
      · exact hx y hy
    · rw [insertRuleDesc, if_neg hp]
      refine List.pairwise_cons.mpr ⟨?_, h⟩
      intro y hy
      rcases List.mem_cons.mp hy with rfl | hy
      · exact le_of_lt (lt_of_not_le hp)
      · exact le_trans (hx y hy) (le_of_lt (lt_of_not_le hp))

theorem sortRulesDesc_pairwise (l : List Rule) :
    (sortRulesDesc l).Pairwise ruleDescOrder := by
  have key : ∀ (m : List Rule) (acc : List Rule), acc.Pairwise ruleDescOrder →
      (m.foldl (fun acc r => insertRuleDesc r acc) acc).Pairwise ruleDescOrder := by
    intro m
    induction m with
    | nil => intro acc h; exact h
    | cons r rs ih =>
      intro acc h
      exact ih (insertRuleDesc r acc) (insertRuleDesc_pairwise r acc h)
  exact key l [] (by simp)

/-! ## Claims -/

/-- C1: for every vendor string (newline-free, as vendors are), the
rule-based `categorize_vendor` upper-cases the vendor, walks the loaded
rules in descending-priority order (the loaded list is sorted descending
by priority), tests each rule's `vendor_pattern` — via the regex
`.*PATTERN.*` with the pattern escaped, i.e. as a substring — against
the upper-cased vendor, returns the category of the first matching rule,
and returns `"Shopping & Retail"` when no rule matches. -/
theorem c1_rule_classifier_spec (input : List RawRule) (vendor : String)
    (hnl : ∀ c ∈ (pyUpper vendor).data, c ≠ '\n') :
    (load_category_rules (Except.ok input)).Pairwise ruleDescOrder ∧
    (∀ r, (load_category_rules (Except.ok input)).find?
        (fun r => occursIn r.vendor_pattern.data (pyUpper vendor).data) = some r →
      categorize_vendor_rules (load_category_rules (Except.ok input)) vendor
        = r.category) ∧
    ((load_category_rules (Except.ok input)).find?
        (fun r => occursIn r.vendor_pattern.data (pyUpper vendor).data) = none →
      categorize_vendor_rules (load_category_rules (Except.ok input)) vendor
        = "Shopping & Retail") := by
  have hcong : (load_category_rules (Except.ok input)).find?
        (fun r => rule_matches r.vendor_pattern (pyUpper vendor))
      = (load_category_rules (Except.ok input)).find?
        (fun r => occursIn r.vendor_pattern.data (pyUpper vendor).data) := by
    refine find?_congr_pred _ _ _ (fun r _ => ?_)
    rw [rule_matches, Rgx.matchAtStart_escRe _ _ hnl]
  refine ⟨sortRulesDesc_pairwise _, ?_, ?_⟩
  · intro r hr
    rw [categorize_vendor_rules, hcong, hr]
  · intro hr
    rw [categorize_vendor_rules, hcong, hr]

/-- Witness for C1: two rules where the higher-priority `KROGER FUEL`
rule beats the lower-priority `KROGER` rule on `"KROGER FUEL CENTER"`. -/
theorem c1_rule_classifier_spec_witness :
    (∀ c ∈ (pyUpper "KROGER FUEL CENTER").data, c ≠ '\n') ∧
    ((load_category_rules (Except.ok
        [⟨"R1", 5, "KROGER", "Groceries & Markets", "", "", "No"⟩,
         ⟨"R2", 90, "KROGER FUEL", "Auto & Gas", "", "", "No"⟩])).Pairwise
          ruleDescOrder ∧
      (∀ r, (load_category_rules (Except.ok
          [⟨"R1", 5, "KROGER", "Groceries & Markets", "", "", "No"⟩,
           ⟨"R2", 90, "KROGER FUEL", "Auto & Gas", "", "", "No"⟩])).find?
          (fun r => occursIn r.vendor_pattern.data
            (pyUpper "KROGER FUEL CENTER").data) = some r →
        categorize_vendor_rules (load_category_rules (Except.ok
          [⟨"R1", 5, "KROGER", "Groceries & Markets", "", "", "No"⟩,
           ⟨"R2", 90, "KROGER FUEL", "Auto & Gas", "", "", "No"⟩]))
          "KROGER FUEL CENTER" = r.category) ∧
      ((load_category_rules (Except.ok
          [⟨"R1", 5, "KROGER", "Groceries & Markets", "", "", "No"⟩,
           ⟨"R2", 90, "KROGER FUEL", "Auto & Gas", "", "", "No"⟩])).find?
          (fun r => occursIn r.vendor_pattern.data
            (pyUpper "KROGER FUEL CENTER").data) = none →
        categorize_vendor_rules (load_category_rules (Except.ok
          [⟨"R1", 5, "KROGER", "Groceries & Markets", "", "", "No"⟩,
           ⟨"R2", 90, "KROGER FUEL", "Auto & Gas", "", "", "No"⟩]))
          "KROGER FUEL CENTER" = "Shopping & Retail")) :=
  ⟨by decide,
   c1_rule_classifier_spec
     [⟨"R1", 5, "KROGER", "Groceries & Markets", "", "", "No"⟩,
      ⟨"R2", 90, "KROGER FUEL", "Auto & Gas", "", "", "No"⟩]
     "KROGER FUEL CENTER" (by decide)⟩

/-- C6: a missing or malformed rules file (the `Except.error` read
outcome) makes `load_category_rules` return the empty rule list, after
which `categorize_vendor` returns the default category
`"Shopping & Retail"` for every vendor; nothing is raised. -/
theorem c6_missing_rules_degrade (err : String) (vendor : String) :
    load_category_rules (Except.error err) = [] ∧
    categorize_vendor_rules (load_category_rules (Except.error err)) vendor
      = "Shopping & Retail" :=
  ⟨rfl, rfl⟩

/-- C2 (evaluation of the CLI categorization pipeline at the three
claimed inputs): "KROGER" normalizes to "KROGER" and is categorized
"Groceries & Markets"; "RANDOM VENDOR" matches no pattern, falls back to
its first token and gets the default "Shopping & Retail"; but
"KROGER FUEL CENTER" is normalized by the earlier `KROGER.*` pattern
(which shadows the later `KROGER FUEL.*` entry) to "KROGER", hence
"Groceries & Markets" — and fed directly to `categorize_vendor` it gets
the default — never the claimed "Auto & Gas". -/
theorem c2_pipeline_eval :
    normalize_vendor (some "KROGER") = some "KROGER" ∧
    categorize_vendor_cli "KROGER" = "Groceries & Markets" ∧
    normalize_vendor (some "RANDOM VENDOR") = some "RANDOM" ∧
    categorize_vendor_cli "RANDOM" = "Shopping & Retail" ∧
    normalize_vendor (some "KROGER FUEL CENTER") = some "KROGER" ∧
    categorize_vendor_cli "KROGER FUEL CENTER" = "Shopping & Retail" := by
  decide

/-- C9: amount strings parse as exact arithmetic — `"1,234.56"` has its
comma stripped and parses to `1234.56`, and in the credit/debit schema
the pair `(credit = "0", debit = "50")` yields `credit - debit = -50`. -/
theorem c9_amount_roundtrip :
    stripCommas "1,234.56" = "1234.56" ∧
    parseAmount "1,234.56" = some ((123456 : ℚ) / 100) ∧
    toNumericFill0 "0" - toNumericFill0 "50" = (-50 : ℚ) := by
  refine ⟨by decide, ?_, ?_⟩
  · have h : parseAmount "1,234.56"
        = some (((1234 : ℕ) : ℚ) + ((56 : ℕ) : ℚ) / (10 : ℚ) ^ 2) := rfl
    rw [h]; norm_num
  · have h : toNumericFill0 "0" - toNumericFill0 "50"
        = ((0 : ℕ) : ℚ) - ((50 : ℕ) : ℚ) := rfl
    rw [h]; norm_num

/-- C5 counterexample: on the all-whitespace (non-empty) description
`" "`, no pattern matches and `d.split()[0]` raises `IndexError`
(modelled as `none`) — the function returns neither a token nor `""`,
although the description is not empty. -/
theorem c5_counterexample :
    (" " : String) ≠ "" ∧ normalize_vendor (some " ") = none := by decide

/-- C5 (amended): `normalize_vendor` returns the replacement of the
first pattern of the fixed ordered list whose regex matches the
upper-cased description anchored at the start (a prefix of the
description is in the regex's language — not necessarily the whole
string); when no pattern matches it returns `""` for an empty/null
description, the first whitespace-delimited token when one exists, and
raises `IndexError` (modelled `none`) on a non-empty all-whitespace
description. -/
theorem c5_normalize_vendor_spec (desc : Option String) :
    (∀ re rep,
      normalizePatterns.find?
          (fun p => Rgx.matchAtStart p.1 (pyUpper (desc.getD "")).data)
        = some (re, rep) →
      normalize_vendor desc = some rep ∧
      ∃ u t, (pyUpper (desc.getD "")).data = u ++ t ∧ Rgx.Accepts re u) ∧
    (normalizePatterns.find?
        (fun p => Rgx.matchAtStart p.1 (pyUpper (desc.getD "")).data)
      = none →
      (pyUpper (desc.getD "") = "" → normalize_vendor desc = some "") ∧
      (∀ c cs, (pyUpper (desc.getD "")).data.dropWhile isPySpace = c :: cs →
        normalize_vendor desc
          = some (((c :: cs).takeWhile (fun x => ¬ isPySpace x)).asString)) ∧
      (pyUpper (desc.getD "") ≠ "" →
        (pyUpper (desc.getD "")).data.dropWhile isPySpace = [] →
        normalize_vendor desc = none)) := by
  constructor
  · intro re rep hfind
    constructor
    · rw [normalize_vendor, hfind]
    · have hp := List.find?_some hfind
      simp only [decide_eq_true_eq] at hp
      exact (Rgx.matchAtStart_iff re (pyUpper (desc.getD "")).data).mp hp
  · intro hfind
    refine ⟨?_, ?_, ?_⟩
    · intro hd
      rw [normalize_vendor, hfind, if_pos hd]
    · intro c cs hdrop
      have hne : pyUpper (desc.getD "") ≠ "" := by
        intro he
        rw [he] at hdrop
        exact List.noConfusion hdrop
      rw [normalize_vendor, hfind, if_neg hne, pySplitHead, hdrop]
    · intro hne hdrop
      rw [normalize_vendor, hfind, if_neg hne, pySplitHead, hdrop]

/-- Witness for C5: `"KROGER #123"` is sent to `"KROGER"` by the first
pattern of the list, which matches a strict prefix. -/
theorem c5_normalize_vendor_spec_witness :
    normalizePatterns.find?
        (fun p => Rgx.matchAtStart p.1 (pyUpper ((some "KROGER #123").getD "")).data)
      = some (litStarRe "KROGER", "KROGER") ∧
    (normalize_vendor (some "KROGER #123") = some "KROGER" ∧
      ∃ u t, (pyUpper ((some "KROGER #123").getD "")).data = u ++ t ∧
        Rgx.Accepts (litStarRe "KROGER") u) :=
  ⟨by decide,
   (c5_normalize_vendor_spec (some "KROGER #123")).1
     (litStarRe "KROGER") "KROGER" (by decide)⟩

/-- C8 counterexample: the date `06/14/1900` parses under the
`MM/DD/YYYY` format — with an explicit four-digit year — yet its year is
still replaced by the target year, because the code replaces the year
whenever the parsed year equals 1900, not only for the year-less
`MM/DD` format. -/
theorem c8_counterexample :
    parseMDY "06/14/1900" = some ⟨1900, 6, 14⟩ ∧
    parse_date_safe 2026 "06/14/1900" = some ⟨2026, 6, 14⟩ := by decide

/-- A date accepted by `mkValidDate` carries the year it was given. -/
theorem mkValidDate_year (y m dd : Nat) (d : PyDate)
    (h : mkValidDate y m dd = some d) : d.year = y := by
  rw [mkValidDate] at h
  split at h
  · cases h; rfl
  · cases h

/-- C8 (amended): `parse_date_safe` tries `%m/%d/%Y`, `%m/%d/%y`,
`%m/%d` in that order; the year-less format parses at year 1900; the
year is then replaced by the target year whenever the parsed year is
1900 — which covers the year-less format and also an explicit year
1900 — and the month filter keeps `02/14/2026` for target 02/2026 and
drops it for target 01/2026. -/
theorem c8_date_format_order :
    (∀ ty x d, parseMDY (pyStrip x) = some d →
      parse_date_safe ty x = some (fixYear ty d)) ∧
    (∀ ty x d, parseMDY (pyStrip x) = none → parseMDy (pyStrip x) = some d →
      parse_date_safe ty x = some (fixYear ty d)) ∧
    (∀ ty x d, parseMDY (pyStrip x) = none → parseMDy (pyStrip x) = none →
      parseMD (pyStrip x) = some d → parse_date_safe ty x = some (fixYear ty d)) ∧
    (∀ x d, parseMD x = some d → d.year = 1900) ∧
    (∀ ty d, (fixYear ty d).year = if d.year = 1900 then ty else d.year) ∧
    inMonth 2 2026 "02/14/2026" = true ∧
    inMonth 1 2026 "02/14/2026" = false := by
  have hMDYnil : parseMDY "" = none := rfl
  have hMDynil : parseMDy "" = none := rfl
  refine ⟨?_, ?_, ?_, ?_, ?_, by decide, by decide⟩
  · intro ty x d h
    have hne : ¬ pyStrip x = "" := by
      intro he; rw [he, hMDYnil] at h; exact Option.noConfusion h
    simp only [parse_date_safe, if_neg hne, h]
  · intro ty x d h1 h2
    have hne : ¬ pyStrip x = "" := by
      intro he; rw [he, hMDynil] at h2; exact Option.noConfusion h2
    simp only [parse_date_safe, if_neg hne, h1, h2]
  · intro ty x d h1 h2 h3
    have hne : ¬ pyStrip x = "" := by
      intro he
      rw [he] at h3
      exact Option.noConfusion h3
    simp only [parse_date_safe, if_neg hne, h1, h2, h3]
  · intro x d h
    rw [parseMD] at h
    split at h
    · simp only [bind, Option.bind_eq_some] at h
      rcases h with ⟨m, hm, dd, hdd, hmk⟩
      exact mkValidDate_year 1900 m dd d hmk
    · exact Option.noConfusion h
  · intro ty d
    by_cases h : d.year = 1900 <;> simp [fixYear, h]

/-- Witness for C8: the first format branch at `02/14/2026`. -/
theorem c8_date_format_order_witness :
    parseMDY (pyStrip "02/14/2026") = some ⟨2026, 2, 14⟩ ∧
    parse_date_safe 2026 "02/14/2026" = some (fixYear 2026 ⟨2026, 2, 14⟩) :=
  ⟨by decide, c8_date_format_order.1 2026 "02/14/2026" ⟨2026, 2, 14⟩ (by decide)⟩

/-- C3 counterexample: under the CLI loader, a credit/debit-schema file
containing a transaction whose description holds the income/transfer
keyword `AUTOPAY` still yields that transaction — the CLI variant's
FORMAT 3 branch never applies the income/transfer filter (the email
variant's does). -/
theorem c3_counterexample :
    is_income_or_transfer_cli (some "CITI AUTOPAY PAYMENT") = true ∧
    (load_any_statement_cli 2 2026
        { path := "card.csv",
          headers := ["Date", "Description", "Credit", "Debit"],
          rows := [{ date := "02/14/2026",
                     description := "CITI AUTOPAY PAYMENT",
                     amountStr := "", creditStr := "0",
                     debitStr := "50" }] }).toOption.map
      (fun txns => txns.map (fun t => (t.date, t.vendor, t.category)))
      = some [("02/14/2026", "CITI", "Shopping & Retail")] := by decide

/-- C3 (amended): the income/transfer filter drops a matching row inside
the balance, posted-date/payee and generic schemas of both variants
(they share `pipelineAmount`), and inside the credit/debit schema of the
email variant — but the CLI variant's credit/debit schema applies no
such filter. -/
theorem c3_income_filter_in_schemas (tm ty : Nat) (r : Row)
    (rows : List Row) (isIncome : Option String → Bool)
    (categorize : String → String) (rules : List Rule) (a : ℚ)
    (hinc : isIncome (some r.description) = true)
    (hincE : is_income_or_transfer_email (some r.description) = true)
    (hamt : parseAmount r.amountStr = some a) :
    pipelineAmount isIncome categorize tm ty (r :: rows)
      = pipelineAmount isIncome categorize tm ty rows ∧
    pipelineCreditDebit_email rules tm ty (r :: rows)
      = pipelineCreditDebit_email rules tm ty rows := by
  constructor
  · have hfr : (parseAmount r.amountStr).map (fun a => (r, a)) = some (r, a) := by
      rw [hamt]; rfl
    simp only [pipelineAmount, List.mapM_cons, hfr, bind, Option.bind_eq_some]
    cases hrest : rows.mapM
        (fun r => (parseAmount r.amountStr).map (fun a => (r, a))) with
    | none => simp [hrest]
    | some l => simp [hrest, List.filter_cons, hinc]
  · simp only [pipelineCreditDebit_email, List.map_cons, List.filter_cons, hincE]
    simp

/-- Witness for C3 (amended): an `AUTOPAY` row with a parseable amount
is dropped by both filtered pipelines. -/
theorem c3_income_filter_in_schemas_witness :
    is_income_or_transfer_cli
        (some (Row.mk "02/14/2026" "CITI AUTOPAY PAYMENT" "50" "" "").description)
      = true ∧
    is_income_or_transfer_email
        (some (Row.mk "02/14/2026" "CITI AUTOPAY PAYMENT" "50" "" "").description)
      = true ∧
    parseAmount (Row.mk "02/14/2026" "CITI AUTOPAY PAYMENT" "50" "" "").amountStr
      = some ((50 : ℕ) : ℚ) ∧
    (pipelineAmount is_income_or_transfer_cli categorize_vendor_cli 2 2026
        [Row.mk "02/14/2026" "CITI AUTOPAY PAYMENT" "50" "" ""]
      = pipelineAmount is_income_or_transfer_cli categorize_vendor_cli 2 2026 [] ∧
    pipelineCreditDebit_email [] 2 2026
        [Row.mk "02/14/2026" "CITI AUTOPAY PAYMENT" "50" "" ""]
      = pipelineCreditDebit_email [] 2 2026 []) :=
  ⟨by decide, by decide, rfl,
   c3_income_filter_in_schemas 2 2026
     (Row.mk "02/14/2026" "CITI AUTOPAY PAYMENT" "50" "" "") []
     is_income_or_transfer_cli categorize_vendor_cli [] ((50 : ℕ) : ℚ)
     (by decide) (by decide) rfl⟩

/-- Two transactions with totals of opposite signs, used to separate
"percent of the absolute value of the signed grand total" (what the code
computes) from "percent of the grand total of absolute values" (what the
claim states). -/
def c4txns : List Txn :=
  [{ date := "01/05/2026", vendor := "A", category := "Groceries & Markets",
     amount := 100 },
   { date := "01/06/2026", vendor := "B", category := "Restaurants & Food",
     amount := -50 }]

/-- C4 counterexample: with category totals `100` and `-50` the code
lists `200%` for the first category (`abs(100) / abs(100 + (-50)) * 100`),
not `100 / (|100| + |-50|) * 100 = 200/3 %` as the claimed denominator
("grand total of absolute values") would give. -/
theorem c4_counterexample :
    report2_rows c4txns
      = [("Groceries & Markets", 100, 200), ("Restaurants & Food", -50, 100)] ∧
    ¬ (200 : ℚ) = |(100 : ℚ)| / (|(100 : ℚ)| + |(-50 : ℚ)|) * 100 := by
  constructor
  · have h : cat_totals c4txns
        = [("Groceries & Markets", (100 : ℚ) + 0),
           ("Restaurants & Food", (-50 : ℚ) + 0)] := rfl
    simp only [report2_rows, grand_total, h, List.map_cons, List.map_nil,
      List.sum_cons, List.sum_nil]
    norm_num
  · norm_num

/-- C4 (amended): every row of the category-percentages report carries
`pct = |total| / |grand_total| * 100` where `grand_total` is the sum of
the signed category totals (not the sum of their absolute values), and
`pct = 0` when that grand total is zero. -/
theorem c4_percent_of_signed_grand_total (txns : List Txn) (c : String)
    (t pct : ℚ) (h : (c, t, pct) ∈ report2_rows txns) :
    pct = if grand_total txns = 0 then 0
      else |t| / |grand_total txns| * 100 := by
  rcases List.mem_map.mp h with ⟨p, hp, heq⟩
  simp only [Prod.mk.injEq] at heq
  obtain ⟨h1, h2, h3⟩ := heq
  subst h3
  subst h2
  by_cases hg : grand_total txns = 0 <;> simp [hg]

/-- Witness for C4 (amended): the 200% row of the two-transaction
example satisfies the signed-grand-total formula. -/
theorem c4_percent_of_signed_grand_total_witness :
    ("Groceries & Markets", (100 : ℚ), (200 : ℚ)) ∈ report2_rows c4txns ∧
    (200 : ℚ) = if grand_total c4txns = 0 then 0
      else |(100 : ℚ)| / |grand_total c4txns| * 100 := by
  have hmem : ("Groceries & Markets", (100 : ℚ), (200 : ℚ))
      ∈ report2_rows c4txns := by
    have h : cat_totals c4txns
        = [("Groceries & Markets", (100 : ℚ) + 0),
           ("Restaurants & Food", (-50 : ℚ) + 0)] := rfl
    have h2 : report2_rows c4txns
        = [("Groceries & Markets", 100, 200),
           ("Restaurants & Food", -50, 100)] := by
      simp only [report2_rows, grand_total, h, List.map_cons, List.map_nil,
        List.sum_cons, List.sum_nil]
      norm_num
    rw [h2]
    exact List.mem_cons_self _ _
  exact ⟨hmem, c4_percent_of_signed_grand_total c4txns _ _ _ hmem⟩

/-- C7: when none of the four schemas matches a file's (normalized)
columns, `load_any_statement` raises the descriptive
`Unrecognized format in file: <path>` error naming only that file; the
batch loop catches it, skips the file and processes the remaining files
unchanged; and a recognized file that yields zero rows after filtering
is kept as an (empty) contribution, not treated as an error. -/
theorem c7_schema_error_isolated (tm ty : Nat) :
    (∀ f : StatementFile,
      schemaBalance (f.headers.map (fun h => pyLower (pyStrip h))) = false →
      schemaPostedPayee (f.headers.map (fun h => pyLower (pyStrip h))) = false →
      schemaCreditDebit (f.headers.map (fun h => pyLower (pyStrip h))) = false →
      schemaGeneric (f.headers.map (fun h => pyLower (pyStrip h))) = false →
      load_any_statement_cli tm ty f
        = Except.error ("Unrecognized format in file: " ++ f.path)) ∧
    (∀ (f : StatementFile) (files1 files2 : List StatementFile),
      (load_any_statement_cli tm ty f).toOption = none →
      processFiles tm ty (files1 ++ f :: files2)
        = processFiles tm ty files1 ++ processFiles tm ty files2) ∧
    (∀ (f : StatementFile) (files1 files2 : List StatementFile),
      load_any_statement_cli tm ty f = Except.ok [] →
      processFiles tm ty (files1 ++ f :: files2)
        = processFiles tm ty files1 ++ [] :: processFiles tm ty files2) := by
  refine ⟨?_, ?_, ?_⟩
  · intro f h1 h2 h3 h4
    simp only [load_any_statement_cli, h1, h2, h3, h4]
    rfl
  · intro f files1 files2 h
    simp only [processFiles, List.filterMap_append, List.filterMap_cons, h]
  · intro f files1 files2 h
    simp only [processFiles, List.filterMap_append, List.filterMap_cons, h]
    rfl

/-- Witness for C7: a one-column file matches no schema and is skipped
between two recognized files; an empty generic-schema file loads as
zero rows. -/
theorem c7_schema_error_isolated_witness :
    (schemaBalance ((StatementFile.mk "x.csv" ["foo"] []).headers.map
        (fun h => pyLower (pyStrip h))) = false ∧
      schemaPostedPayee ((StatementFile.mk "x.csv" ["foo"] []).headers.map
        (fun h => pyLower (pyStrip h))) = false ∧
      schemaCreditDebit ((StatementFile.mk "x.csv" ["foo"] []).headers.map
        (fun h => pyLower (pyStrip h))) = false ∧
      schemaGeneric ((StatementFile.mk "x.csv" ["foo"] []).headers.map
        (fun h => pyLower (pyStrip h))) = false) ∧
    load_any_statement_cli 2 2026 (StatementFile.mk "x.csv" ["foo"] [])
      = Except.error ("Unrecognized format in file: "
          ++ (StatementFile.mk "x.csv" ["foo"] []).path) ∧
    processFiles 2 2026
        [StatementFile.mk "a.csv" ["Date", "Description", "Amount"] [],
         StatementFile.mk "x.csv" ["foo"] [],
         StatementFile.mk "b.csv" ["Date", "Description", "Amount"] []]
      = processFiles 2 2026
          [StatementFile.mk "a.csv" ["Date", "Description", "Amount"] []]
        ++ processFiles 2 2026
          [StatementFile.mk "b.csv" ["Date", "Description", "Amount"] []] ∧
    load_any_statement_cli 2 2026
        (StatementFile.mk "b.csv" ["Date", "Description", "Amount"] [])
      = Except.ok [] ∧
    processFiles 2 2026
        [StatementFile.mk "b.csv" ["Date", "Description", "Amount"] []]
      = processFiles 2 2026 []
        ++ [] :: processFiles 2 2026 [] :=
  ⟨⟨by decide, by decide, by decide, by decide⟩,
   (c7_schema_error_isolated 2 2026).1 (StatementFile.mk "x.csv" ["foo"] [])
     (by decide) (by decide) (by decide) (by decide),
   (c7_schema_error_isolated 2 2026).2.1 (StatementFile.mk "x.csv" ["foo"] [])
     [StatementFile.mk "a.csv" ["Date", "Description", "Amount"] []]
     [StatementFile.mk "b.csv" ["Date", "Description", "Amount"] []]
     (by decide),
   rfl,
   (c7_schema_error_isolated 2 2026).2.2
     (StatementFile.mk "b.csv" ["Date", "Description", "Amount"] []) [] []
     rfl⟩

theorem sum_indicator_zero (order : List String) (x : String) (q : ℚ)
    (hx : x ∉ order) :
    (order.map (fun c => if x = c then q else 0)).sum = 0 := by
  induction order with
  | nil => simp
  | cons c rest ih =>
    simp only [List.map_cons, List.sum_cons]
    rw [if_neg (fun h => hx (by rw [h]; exact List.mem_cons_self c rest)),
      ih (fun h => hx (List.mem_cons_of_mem c h))]
    simp

theorem sum_indicator (order : List String) (x : String) (q : ℚ)
    (hnd : order.Nodup) (hx : x ∈ order) :
    (order.map (fun c => if x = c then q else 0)).sum = q := by
  induction order with
  | nil => cases hx
  | cons c rest ih =>
    simp only [List.map_cons, List.sum_cons]
    rcases List.mem_cons.mp hx with rfl | hx2
    · rw [if_pos rfl, sum_indicator_zero rest x q (List.nodup_cons.mp hnd).1]
      simp
    · have hxc : ¬ x = c := fun h => (List.nodup_cons.mp hnd).1 (by rw [← h]; exact hx2)
      rw [if_neg hxc, ih (List.nodup_cons.mp hnd).2 hx2]
      simp

theorem sum_map_add_distrib (order : List String) (f g : String → ℚ) :
    (order.map (fun c => f c + g c)).sum
      = (order.map f).sum + (order.map g).sum := by
  induction order with
  | nil => simp
  | cons c rest ih =>
    simp only [List.map_cons, List.sum_cons, ih]
    ring

theorem sum_over_category_order (order : List String) (hnd : order.Nodup)
    (txns : List Txn) (hcov : ∀ t ∈ txns, t.category ∈ order) :
    (order.map (fun c =>
        ((txns.filter (fun t => t.category = c)).map Txn.amount).sum)).sum
      = (txns.map Txn.amount).sum := by
  induction txns with
  | nil => simp
  | cons t ts ih =>
    have hstep : ∀ c : String,
        (((t :: ts).filter (fun u => u.category = c)).map Txn.amount).sum
          = (if t.category = c then t.amount else 0)
            + ((ts.filter (fun u => u.category = c)).map Txn.amount).sum := by
      intro c
      by_cases h : t.category = c
      · simp [List.filter_cons, h]
      · simp [List.filter_cons, h]
    rw [List.map_congr_left (fun c _ => hstep c), sum_map_add_distrib,
      sum_indicator order t.category t.amount hnd
        (hcov t (List.mem_cons_self t ts)),
      ih (fun u hu => hcov u (List.mem_cons_of_mem t hu))]
    simp

theorem catTotals_snd_sum (txns : List Txn) :
    ((cat_totals txns).map Prod.snd).sum
      = (category_order.map (fun c =>
          ((txns.filter (fun t => t.category = c)).map Txn.amount).sum)).sum := by
  rw [cat_totals]
  induction category_order with
  | nil => simp
  | cons c rest ih =>
    simp only [List.filterMap_cons, List.map_cons, List.sum_cons]
    by_cases h : (txns.filter (fun t => t.category = c)).isEmpty
    · have hz : ((txns.filter (fun t => t.category = c)).map Txn.amount).sum = 0 := by
        rw [List.isEmpty_iff.mp h]; simp
      rw [if_pos h]
      simp only [ih, hz, zero_add]
    · rw [if_neg h]
      simp only [List.map_cons, List.sum_cons, ih]

theorem countP_sections_eq_count (order : List String) (txns : List Txn)
    (t : Txn) (ht : t ∈ txns) :
    (order.filterMap (fun c =>
        let sub := txns.filter (fun u => u.category = c)
        if sub.isEmpty then none else some (c, sub))).countP
      (fun s => decide (t ∈ s.2))
      = order.count t.category := by
  induction order with
  | nil => simp
  | cons c rest ih =>
    simp only [List.filterMap_cons]
    by_cases h : (txns.filter (fun u => u.category = c)).isEmpty
    · have hne : ¬ t.category = c := by
        intro hc
        have hm : t ∈ txns.filter (fun u => u.category = c) :=
          List.mem_filter.mpr ⟨ht, by simp [hc]⟩
        rw [List.isEmpty_iff.mp h] at hm
        cases hm
      rw [if_pos h]
      simp only [ih, List.count_cons]
      simp only [List.count_cons] at *
      simp [hne]
      exact fun hh => hne hh.symm
    · by_cases hc : t.category = c
      · have hm : t ∈ txns.filter (fun u => u.category = c) :=
          List.mem_filter.mpr ⟨ht, by simp [hc]⟩
        rw [if_neg h]
        simp only [List.countP_cons, ih, List.count_cons]
        simp [hm, hc]
      · have hm : t ∉ txns.filter (fun u => u.category = c) := by
          intro hmem
          exact hc (by simpa using (List.mem_filter.mp hmem).2)
        rw [if_neg h]
        simp only [List.countP_cons, ih, List.count_cons]
        simp [hm, hc]
        exact fun hh => hc hh.symm

/-- C10: the hard-coded classifier only ever returns one of the eight
labels of `category_order` (the report display order, duplicate-free);
consequently every transaction whose category came from the classifier
is counted in exactly one category section of Report 1 and the Report 2
grand total equals the plain sum of all transaction amounts. -/
theorem c10_fixed_category_partition :
    (∀ v, categorize_vendor_cli v ∈ category_order) ∧
    category_order.Nodup ∧
    (∀ txns : List Txn, (∀ t ∈ txns, t.category ∈ category_order) →
      (∀ t ∈ txns,
        (report1_sections txns).countP (fun s => decide (t ∈ s.2)) = 1) ∧
      grand_total txns = (txns.map Txn.amount).sum) := by
  refine ⟨?_, by decide, ?_⟩
  · intro v
    simp only [categorize_vendor_cli]
    split_ifs <;> decide
  · intro txns hcov
    constructor
    · intro t ht
      rw [report1_sections, countP_sections_eq_count category_order txns t ht]
      exact List.count_eq_one_of_mem (by decide) (hcov t ht)
    · rw [grand_total, catTotals_snd_sum,
        sum_over_category_order category_order (by decide) txns hcov]

/-- One pipeline-shaped transaction, for the C10 witness. -/
def c10txns : List Txn :=
  [{ date := "02/14/2026", vendor := "KROGER",
     category := "Groceries & Markets", amount := 100 }]

/-- Witness for C10 at a concrete transaction list. -/
theorem c10_fixed_category_partition_witness :
    (∀ t ∈ c10txns, t.category ∈ category_order) ∧
    ((∀ t ∈ c10txns,
        (report1_sections c10txns).countP (fun s => decide (t ∈ s.2)) = 1) ∧
      grand_total c10txns = (c10txns.map Txn.amount).sum) :=
  ⟨by decide, c10_fixed_category_partition.2.2 c10txns (by decide)⟩
